import Mathlib

/-!
Shallow embedding of `src/extensions/mod_management/util/dependencies.ts`
(Vortex dependency-gathering subsystem).

External collaborators (the `semver` and `minimatch` libraries, the
polymorphic `testModReference` predicate, the remote lookup capability and
the state selectors) are modelled as fields of an `Externals` record, as the
specification treats them: black boxes with a stated contract.

JavaScript particulars mirrored here:
  * `undefined` fields are `Option`;
  * object identity (`!==`) inside `removeDuplicates` is positional
    identity: the entries handed to it are freshly constructed objects, so
    two entries are the same JS object exactly when they sit at the same
    input index;
  * `Array.prototype.sort` (ES2019) is any stable sort consistent with the
    comparator; `jsSort` below is a stable insertion sort, which for a
    consistent comparator produces the same list;
  * `rhs - lhs` on numbers is integer subtraction on the timestamps here.
-/

/-- A match query: every field optional, conjunctive when present. -/
structure IReference where
  gameId : Option String := none
  fileMD5 : Option String := none
  fileSize : Option Nat := none
  logicalFileName : Option String := none
  fileExpression : Option String := none
  versionMatch : Option String := none
deriving Repr, DecidableEq

structure IRule where
  type : String
  reference : IReference
deriving Repr, DecidableEq

/-- The `value` of one remote lookup candidate. -/
structure ILookupValue where
  gameId : String := ""
  fileMD5 : String := ""
  fileSizeBytes : Nat := 0
  logicalFileName : String := ""
  fileName : String := ""
  fileVersion : String := ""
  rules : Option (List IRule) := none
deriving Repr, DecidableEq

/-- One remote lookup candidate; `value` may be `undefined`. -/
structure ILookupResult where
  value : Option ILookupValue
deriving Repr, DecidableEq

structure IDependency where
  download : Option String
  reference : IReference
  lookupResults : List ILookupResult
deriving Repr, DecidableEq

structure IModInfo where
  version : Option String := none
  name : Option String := none
deriving Repr, DecidableEq

/-- A cached download record (the fields this module reads). -/
structure IDownload where
  fileMD5 : Option String := none
  localPath : Option String := none
  size : Option Nat := none
  fileTime : Int := 0
  modInfo : Option IModInfo := none
deriving Repr, DecidableEq

/-- An installed mod is opaque to this module: only the external
`testModReference` predicate ever inspects it. -/
structure IMod where
  id : String
deriving Repr, DecidableEq

/-- The normalized lookup shape `findDownloadByRef` derives from a download. -/
structure IModLookupInfo where
  fileMD5 : Option String
  fileName : Option String
  fileSizeBytes : Option Nat
  version : Option String
  logicalFileName : Option String
deriving Repr, DecidableEq

/-- Outcome of the asynchronous `api.lookupModReference` call: a fulfilled
promise carrying candidates, or a rejection. -/
inductive LookupOutcome where
  | success (results : List ILookupResult)
  | failure (message : String)
deriving Repr, DecidableEq

/-- The state snapshot read by this module: the active game id
(`activeGameId` selector), the installed mods per game
(`state.persistent.mods[gameMode]`, in `Object.values` order) and the
cached downloads (`state.persistent.downloads.files`, in `Object.keys`
order). -/
structure IState where
  activeGame : String
  mods : String → List IMod
  downloads : List (String × IDownload)

/-- External collaborators: the `semver` library (`validRange`, `satisfies`,
`coerce`), `minimatch`, the black-box `testModReference` predicate in its
two shapes, and the remote lookup capability. `coerce` yields the
(major, minor, patch) triple of a coercible version string. -/
structure Externals where
  validRange : String → Option String
  satisfies : String → String → Bool
  minimatch : String → String → Bool
  coerce : String → Option (Nat × Nat × Nat)
  testMod : IMod → IReference → Bool
  testLookupInfo : IModLookupInfo → IReference → Bool
  lookup : IReference → LookupOutcome

/-- `activeGameId(state)` selector. -/
def activeGameId (state : IState) : String := state.activeGame

/-- `isNaN(parseInt(c, 16))` is false exactly for hexadecimal digits. -/
def isHexDigit (c : Char) : Bool :=
  c.isDigit || ('a' ≤ c && c ≤ 'f') || ('A' ≤ c && c ≤ 'F')

/-- `isFuzzyVersion`: false for an absent (`undefined`) or empty string
(`truthy` guard); otherwise true iff the first character is not a hex digit
or the string does not round-trip through `semver.validRange`. -/
def isFuzzyVersion (env : Externals) (versionMatch : Option String) : Bool :=
  match versionMatch with
  | none => false
  | some s =>
    if s.isEmpty then false
    else !(isHexDigit s.front) || (env.validRange s != some s)

/-- The reference relaxation performed inside `findModByRef`:
`(versionMatch !== undefined) && isFuzzyVersion(versionMatch) &&
(fileMD5 !== undefined) && (logicalFileName !== undefined ||
fileExpression !== undefined)` rebinds the local to `_.omit(reference,
['fileMD5'])`. -/
def relaxModRef (env : Externals) (reference : IReference) : IReference :=
  if (reference.versionMatch != none)
      && isFuzzyVersion env reference.versionMatch
      && (reference.fileMD5 != none)
      && ((reference.logicalFileName != none)
          || (reference.fileExpression != none)) then
    { reference with fileMD5 := none }
  else
    reference

/-- The reference relaxation performed inside `findDownloadByRef` (same as
`relaxModRef` but without the leading `versionMatch !== undefined` test). -/
def relaxDownloadRef (env : Externals) (reference : IReference) : IReference :=
  if isFuzzyVersion env reference.versionMatch
      && (reference.fileMD5 != none)
      && ((reference.logicalFileName != none)
          || (reference.fileExpression != none)) then
    { reference with fileMD5 := none }
  else
    reference

/-- `findModByRef(reference, state)`: relax, then `Object.values(mods).find`. -/
def findModByRef (env : Externals) (reference : IReference) (state : IState) :
    Option IMod :=
  let mods := state.mods (activeGameId state)
  let reference := relaxModRef env reference
  mods.find? (fun mod => env.testMod mod reference)

/-- Sign-valued comparison of two (major, minor, patch) triples,
lexicographically: the meaning of `semver.compare` on coerced versions. -/
def semverCompare (lhs rhs : Nat × Nat × Nat) : Int :=
  if lhs = rhs then 0
  else if lhs.1 < rhs.1
      || (lhs.1 = rhs.1 && (lhs.2.1 < rhs.2.1
          || (lhs.2.1 = rhs.2.1 && lhs.2.2 < rhs.2.2))) then -1
  else 1

/-- `newerSort(lhs, rhs)`: compare coerced `modInfo.version`s descending when
both coerce, else compare `fileTime` descending. -/
def newerSort (env : Externals) (lhs rhs : IDownload) : Int :=
  let lVersion := (lhs.modInfo.bind (·.version)).bind env.coerce
  let rVersion := (rhs.modInfo.bind (·.version)).bind env.coerce
  match lVersion, rVersion with
  | some l, some r => semverCompare r l
  | _, _ => rhs.fileTime - lhs.fileTime

/-- Stable insertion of `a` into `l`: `a` goes before the first element `b`
with `le a b`. -/
def jsInsert (le : α → α → Bool) (a : α) : List α → List α
  | [] => [a]
  | b :: bs => if le a b then a :: b :: bs else b :: jsInsert le a bs

/-- Stable sort: the observable behaviour of `Array.prototype.sort` for a
consistent comparator `c`, with `le a b := c a b ≤ 0`. -/
def jsSort (le : α → α → Bool) : List α → List α
  | [] => []
  | a :: as => jsInsert le a (jsSort le as)

/-- The lookup shape `findDownloadByRef` builds from a download record. -/
def downloadLookupInfo (download : IDownload) : IModLookupInfo :=
  { fileMD5 := download.fileMD5
    fileName := download.localPath
    fileSizeBytes := download.size
    version := download.modInfo.bind (·.version)
    logicalFileName := download.modInfo.bind (·.name) }

/-- `findDownloadByRef(reference, state)`: relax, filter downloads whose
derived lookup shape matches, sort by `newerSort`, return the first id.
(The source filters and sorts the id strings, indexing back into the
download map; keys of a JS object are unique, so filtering and sorting the
(id, download) pairs and projecting the id afterwards is the same list.) -/
def findDownloadByRef (env : Externals) (reference : IReference)
    (state : IState) : Option String :=
  let downloads := state.downloads
  let reference := relaxDownloadRef env reference
  let existing :=
    jsSort (fun l r => decide (newerSort env l.2 r.2 ≤ 0))
      (downloads.filter
        (fun entry => env.testLookupInfo (downloadLookupInfo entry.2) reference))
  (existing.map (·.1)).head?

def matchingDownloads (env : Externals) (reference : IReference)
    (state : IState) : List (String × IDownload) :=
  state.downloads.filter (fun entry =>
    env.testLookupInfo (downloadLookupInfo entry.2)
      (relaxDownloadRef env reference))

/-- `lookupFulfills(lookup, reference)`: conjunction over the present
reference fields. When `lookup.value` is `undefined` the JS code never
reaches a field access only if every reference field is absent (each
conjunct short-circuits on `=== undefined` first); that is the only case
reachable from this module, and it yields `true`. -/
def refFieldsAbsent (r : IReference) : Bool :=
  (r.gameId == none) && (r.fileMD5 == none) && (r.fileSize == none)
    && (r.logicalFileName == none) && (r.fileExpression == none)
    && (r.versionMatch == none)

def lookupFulfills (env : Externals) (lookup : ILookupResult)
    (reference : IReference) : Bool :=
  match lookup.value with
  | none => refFieldsAbsent reference
  | some value =>
    ((reference.gameId == none) || (reference.gameId == some value.gameId))
    && ((reference.fileMD5 == none) || (reference.fileMD5 == some value.fileMD5))
    && ((reference.fileSize == none)
        || (reference.fileSize == some value.fileSizeBytes))
    && ((reference.logicalFileName == none)
        || (reference.logicalFileName == some value.logicalFileName))
    && (match reference.fileExpression with
        | none => true
        | some fe => env.minimatch value.fileName fe)
    && (match reference.versionMatch with
        | none => true
        | some vm => env.satisfies value.fileVersion vm)

/-- `dep.lookupResults[0]` applied to `lookupFulfills`. An empty
`lookupResults` would fault in JS; it is unreachable from the gatherer
(entries are created only after a non-empty lookup) and is mapped to
`false` here. -/
def depHeadFulfills (env : Externals) (dep : IDependency)
    (reference : IReference) : Bool :=
  match dep.lookupResults.head? with
  | some lr => lookupFulfills env lr reference
  | none => false

/-- `input.map((item, idx) => ({item, idx}))`, with the index first. -/
def indexed (i : Nat) : List α → List (Nat × α)
  | [] => []
  | a :: as => (i, a) :: indexed (i + 1) as

/-- One `temp` element before nulling: the dependency plus the indices
(into the ORIGINAL input order) of the other dependencies its primary
lookup candidate fulfills. -/
structure DedupEntry where
  dep : IDependency
  collateral : List Nat
deriving Repr, DecidableEq

/-- Step 1 of `removeDuplicates`: the mapped entries, in input order. -/
def dedupEntries (env : Externals) (input : List IDependency) :
    List DedupEntry :=
  (indexed 0 input).map (fun p =>
    { dep := p.2
      collateral :=
        ((indexed 0 input).filter (fun inner =>
            (inner.1 != p.1)
            && depHeadFulfills env p.2 inner.2.reference)).map (·.1) })

/-- The nulling loop of `removeDuplicates`: for each position `i` of the
SORTED array in turn, if the entry there is not yet null, null out the
positions listed in its collateral set (indices that were computed against
the original input order). -/
def markRemovals (temp : List (Option DedupEntry)) : List (Option DedupEntry) :=
  (List.range temp.length).foldl
    (fun acc i =>
      match acc[i]? with
      | some (some entry) =>
        entry.collateral.foldl (fun acc2 idx => acc2.set idx none) acc
      | _ => acc)
    temp

/-- `removeDuplicates(input)`: map to entries, sort descending by collateral
size (stable), run the nulling loop, keep the survivors. -/
def removeDuplicates (env : Externals) (input : List IDependency) :
    List IDependency :=
  let temp :=
    jsSort (fun l r => decide (r.collateral.length ≤ l.collateral.length))
      (dedupEntries env input)
  ((markRemovals (temp.map some)).filterMap id).map (·.dep)

/-- Result of one (fuelled) run of the gatherer: the dependency list, the
log lines emitted (`log('error', 'failed to look up', ...)`), and the
references passed to the lookup capability, in order. -/
abbrev GatherOut := List IDependency × List String × List IReference

/-- The body of `Promise.reduce` inside `gatherDependencies`: process the
requirements strictly sequentially, accumulating `total`. `recurse` is the
recursive `gatherDependencies` call applied to a candidate's nested rules.
A rule matching an installed mod is skipped; a rejected lookup, an empty
result list, or an undefined first value is caught by the `.catch`, logged,
and contributes nothing; a usable first candidate triggers recursion into
its nested rules, after which the recursive result and one new dependency
record are appended. -/
def gatherLoopWith (env : Externals) (state : IState)
    (recurse : Option (List IRule) → Option GatherOut) :
    List IDependency → List String → List IReference → List IRule →
    Option GatherOut
  | total, logs, lks, [] => some (total, logs, lks)
  | total, logs, lks, rule :: rest =>
    if (findModByRef env rule.reference state).isSome then
      gatherLoopWith env state recurse total logs lks rest
    else
      match env.lookup rule.reference with
      | .failure msg =>
        gatherLoopWith env state recurse total
          (logs ++ ["failed to look up: " ++ msg])
          (lks ++ [rule.reference]) rest
      | .success details =>
        match details.head? with
        | none =>
          gatherLoopWith env state recurse total
            (logs ++ ["failed to look up: reference not found"])
            (lks ++ [rule.reference]) rest
        | some first =>
          match first.value with
          | none =>
            gatherLoopWith env state recurse total
              (logs ++ ["failed to look up: reference not found"])
              (lks ++ [rule.reference]) rest
          | some value =>
            match recurse value.rules with
            | none => none
            | some (deps, recLogs, recLks) =>
              gatherLoopWith env state recurse
                (total ++ deps
                  ++ [{ download := findDownloadByRef env rule.reference state
                        reference := rule.reference
                        lookupResults := details }])
                (logs ++ recLogs)
                (lks ++ [rule.reference] ++ recLks) rest

/-- `gatherDependencies(rules, api)`. `fuel` bounds the recursion depth (the
source has no such bound and recurses without limit on a cyclic rule graph);
`none` means the fuel ran out mid-recursion. Absent (`undefined`) `rules`
count as empty, only `type === 'requires'` rules are processed, and the
final `.then` passes the accumulated list through `removeDuplicates`. -/
def gatherDependencies (env : Externals) (state : IState) :
    Nat → Option (List IRule) → Option GatherOut
  | 0, _ => none
  | fuel + 1, rules =>
    let requirements :=
      (rules.getD []).filter (fun rule => rule.type == "requires")
    match gatherLoopWith env state (gatherDependencies env state fuel)
        [] [] [] requirements with
    | some (total, logs, lks) => some (removeDuplicates env total, logs, lks)
    | none => none

/-- A least-committal instantiation of the external collaborators. -/
def trivEnv : Externals :=
  { validRange := fun _ => none
    satisfies := fun _ _ => false
    minimatch := fun _ _ => false
    coerce := fun _ => none
    testMod := fun _ _ => false
    testLookupInfo := fun _ _ => false
    lookup := fun _ => .failure "offline" }

/-- Failing input for the deduplicator invariant: references identified by
`fileMD5` alone. `bugDepA`'s candidate fulfills `bugDepB`'s reference,
`bugDepC`'s candidate fulfills `bugDepA`'s reference, nothing else. -/
def bugRefA : IReference := { fileMD5 := some "a" }
def bugRefB : IReference := { fileMD5 := some "x" }
def bugRefC : IReference := { fileMD5 := some "c" }
def bugDepA : IDependency := ⟨none, bugRefA, [⟨some { fileMD5 := "x" }⟩]⟩
def bugDepB : IDependency := ⟨none, bugRefB, [⟨some { fileMD5 := "b" }⟩]⟩
def bugDepC : IDependency := ⟨none, bugRefC, [⟨some { fileMD5 := "a" }⟩]⟩

/-- Concrete dependencies realizing the C2 scenario. -/
def winRefA : IReference := { fileMD5 := some "a" }
def winRefB : IReference := { fileMD5 := some "x" }
def winRefC : IReference := { logicalFileName := some "L" }
def winDepA : IDependency :=
  ⟨none, winRefA, [⟨some { fileMD5 := "x", logicalFileName := "L" }⟩]⟩
def winDepB : IDependency := ⟨none, winRefB, [⟨some { fileMD5 := "b" }⟩]⟩
def winDepC : IDependency := ⟨none, winRefC, [⟨some { fileMD5 := "c" }⟩]⟩

def lookupUnusable (outcome : LookupOutcome) : Bool :=
  match outcome with
  | .failure _ => true
  | .success [] => true
  | .success (first :: _) => first.value == none

def emptyState : IState := ⟨"game1", fun _ => [], []⟩

def semverishEnv : Externals :=
  { trivEnv with
    validRange := fun s => if s = "1.2.3" then some "1.2.3" else none }

def fuzzyRef : IReference :=
  { fileMD5 := some "m", logicalFileName := some "lib",
    versionMatch := some "latest" }

def noMd5Ref : IReference :=
  { logicalFileName := some "lib", versionMatch := some "latest" }

def abcValue : ILookupValue := { fileMD5 := "abc" }
def abcRef : IReference := { fileMD5 := some "abc" }
def defRef : IReference := { fileMD5 := some "def" }

def coerceEnv : Externals :=
  { trivEnv with
    coerce := fun s =>
      if s = "1.0.0" then some (1, 0, 0)
      else if s = "2.0.0" then some (2, 0, 0)
      else none
    testLookupInfo := fun _ _ => true }

def dlOld : IDownload := { modInfo := some { version := some "1.0.0" }, fileTime := 5 }
def dlNew : IDownload := { modInfo := some { version := some "2.0.0" }, fileTime := 1 }
def twoVerState : IState := ⟨"game1", fun _ => [], [("old", dlOld), ("new", dlNew)]⟩
def dlEarly : IDownload := { fileTime := 3 }
def dlLate : IDownload := { fileTime := 9 }
def twoTimeState : IState :=
  ⟨"game1", fun _ => [], [("early", dlEarly), ("late", dlLate)]⟩

def reqRef : IReference :=
  { logicalFileName := some "Core Lib", versionMatch := some ">=1.0.0" }
def reqRule : IRule := { type := "requires", reference := reqRef }
def installedEnv : Externals := { trivEnv with testMod := fun _ _ => true }
def oneModState : IState := ⟨"game1", fun _ => [⟨"m1"⟩], []⟩

def relaxEnv : Externals :=
  { trivEnv with
    testLookupInfo := fun _ r => r.fileMD5 == none
    lookup := fun _ => .success [⟨some {}⟩] }
def dlState : IState := ⟨"game1", fun _ => [], [("dl1", {})]⟩
def fuzzyRule : IRule := { type := "requires", reference := fuzzyRef }

/-! ## Helper lemmas, claim theorems and witnesses -/

theorem jsInsert_perm (le : α → α → Bool) (a : α) (l : List α) :
    List.Perm (jsInsert le a l) (a :: l) := by
  induction l with
  | nil => simp [jsInsert]
  | cons b bs ih =>
    simp only [jsInsert]
    split
    · exact List.Perm.refl _
    · exact ((ih.cons b).trans (List.Perm.swap a b bs))

theorem jsSort_perm (le : α → α → Bool) (l : List α) :
    List.Perm (jsSort le l) l := by
  induction l with
  | nil => simp [jsSort]
  | cons a as ih => exact (jsInsert_perm le a (jsSort le as)).trans (ih.cons a)

theorem indexed_mem {p : Nat × α} :
    ∀ {k : Nat} {l : List α}, p ∈ indexed k l → p.2 ∈ l := by
  intro k l
  induction l generalizing k with
  | nil => simp [indexed]
  | cons a as ih =>
    intro h
    simp only [indexed, List.mem_cons] at h
    rcases h with h | h
    · simp [h]
    · exact List.mem_cons_of_mem a (ih h)

theorem indexed_length :
    ∀ (k : Nat) (l : List α), (indexed k l).length = l.length := by
  intro k l
  induction l generalizing k with
  | nil => rfl
  | cons a as ih => simp [indexed, ih]

theorem mem_foldl_setNone {e : β} :
    ∀ (idxs : List Nat) (acc : List (Option β)),
      some e ∈ idxs.foldl (fun a i => a.set i none) acc → some e ∈ acc := by
  intro idxs
  induction idxs with
  | nil => intro acc h; exact h
  | cons i is ih =>
    intro acc h
    have h2 := ih _ h
    rcases List.mem_or_eq_of_mem_set h2 with h3 | h3
    · exact h3
    · cases h3

theorem length_foldl_setNone :
    ∀ (idxs : List Nat) (acc : List (Option β)),
      (idxs.foldl (fun a i => a.set i none) acc).length = acc.length := by
  intro idxs
  induction idxs with
  | nil => intro acc; rfl
  | cons i is ih => intro acc; rw [List.foldl_cons, ih, List.length_set]

theorem mem_markRemovals_aux {e : β}
    (step : List (Option β) → Nat → List (Option β))
    (hstep : ∀ acc i, some e ∈ step acc i → some e ∈ acc) :
    ∀ (l : List Nat) (acc : List (Option β)),
      some e ∈ l.foldl step acc → some e ∈ acc := by
  intro l
  induction l with
  | nil => intro acc h; exact h
  | cons i is ih => intro acc h; exact hstep _ _ (ih _ h)

theorem length_foldl_pres
    (step : List (Option β) → Nat → List (Option β))
    (hstep : ∀ acc i, (step acc i).length = acc.length) :
    ∀ (l : List Nat) (acc : List (Option β)),
      (l.foldl step acc).length = acc.length := by
  intro l
  induction l with
  | nil => intro acc; rfl
  | cons i is ih => intro acc; rw [List.foldl_cons, ih, hstep]

/-- C1 (code bug). The claim states `removeDuplicates` leaves no pair of
distinct survivors d, e with `fulfills(d.lookupResults[0], e.reference)`,
which is also what the source comments intend ("figure out which of the
other dependencies would be solved by the same lookup result ... filter
those from the result"). The code computes collateral sets as indices into
the ORIGINAL input order but then nulls `temp[idx]` in the SORTED array, so
on input [A, B, C] with A's candidate fulfilling B's reference and C's
candidate fulfilling A's reference, the sort order is [A, C, B] and A's
collateral index 1 (meant for B) removes C instead: A and B both survive
although A's primary candidate fulfills B's reference. -/
theorem removeDuplicates_redundancy_invariant_fails :
    removeDuplicates trivEnv [bugDepA, bugDepB, bugDepC] = [bugDepA, bugDepB]
    ∧ depHeadFulfills trivEnv bugDepA bugDepB.reference = true
    ∧ bugDepA ≠ bugDepB := by decide

/-- C2: for three distinct dependencies A, B, C supplied in that input
order, where A's primary lookup candidate fulfills B's and C's references
and no other fulfillment relation holds among the three, `removeDuplicates`
returns exactly [A]. -/
theorem removeDuplicates_greedy_three
    (env : Externals) (A B C : IDependency) (a0 b0 c0 : ILookupResult)
    (hA0 : A.lookupResults.head? = some a0)
    (hB0 : B.lookupResults.head? = some b0)
    (hC0 : C.lookupResults.head? = some c0)
    (hAB : lookupFulfills env a0 B.reference = true)
    (hAC : lookupFulfills env a0 C.reference = true)
    (hBA : lookupFulfills env b0 A.reference = false)
    (hBC : lookupFulfills env b0 C.reference = false)
    (hCA : lookupFulfills env c0 A.reference = false)
    (hCB : lookupFulfills env c0 B.reference = false)
    (hABne : A ≠ B) (hACne : A ≠ C) (hBCne : B ≠ C) :
    removeDuplicates env [A, B, C] = [A] := by
  simp [removeDuplicates, dedupEntries, indexed, depHeadFulfills,
        hA0, hB0, hC0, hAB, hAC, hBA, hBC, hCA, hCB,
        jsSort, jsInsert, markRemovals, List.filter, List.range_succ]

/-- Witness for C2 at a concrete input. -/
theorem removeDuplicates_greedy_three_witness :
    removeDuplicates trivEnv [winDepA, winDepB, winDepC] = [winDepA] :=
  removeDuplicates_greedy_three trivEnv winDepA winDepB winDepC _ _ _
    rfl rfl rfl (by decide) (by decide) (by decide) (by decide) (by decide)
    (by decide) (by decide) (by decide) (by decide)

/-- C10: every element of `removeDuplicates`' output is one of the input
dependencies unchanged (the pass only marks and filters), the output is
never longer than the input, and the empty input yields the empty output. -/
theorem removeDuplicates_mark_and_filter (env : Externals)
    (input : List IDependency) :
    (∀ d, d ∈ removeDuplicates env input → d ∈ input)
    ∧ (removeDuplicates env input).length ≤ input.length
    ∧ removeDuplicates env ([] : List IDependency) = [] := by
  have hstepMem : ∀ (acc : List (Option DedupEntry)) (i : Nat) (e : DedupEntry),
      some e ∈ (match acc[i]? with
        | some (some entry) =>
          entry.collateral.foldl
            (fun (acc2 : List (Option DedupEntry)) idx => acc2.set idx none) acc
        | _ => acc) → some e ∈ acc := by
    intro acc i e h
    cases hm : acc[i]? with
    | none => rw [hm] at h; exact h
    | some oe =>
      cases oe with
      | none => rw [hm] at h; exact h
      | some entry => rw [hm] at h; exact mem_foldl_setNone _ _ h
  refine ⟨?_, ?_, rfl⟩
  · intro d hd
    simp only [removeDuplicates] at hd
    rcases List.mem_map.1 hd with ⟨e, he, rfl⟩
    rcases List.mem_filterMap.1 he with ⟨oe, hoe, hid⟩
    have hsome : some e ∈ markRemovals
        ((jsSort (fun l r => decide (r.collateral.length ≤ l.collateral.length))
          (dedupEntries env input)).map some) := by
      cases oe with
      | none => cases hid
      | some e2 => cases hid; exact hoe
    have htemp := mem_markRemovals_aux _ (fun acc i => hstepMem acc i e) _ _ hsome
    rcases List.mem_map.1 htemp with ⟨e2, he2, heq⟩
    cases heq
    have hdedup : e ∈ dedupEntries env input :=
      ((jsSort_perm _ _).mem_iff).1 he2
    rcases List.mem_map.1 hdedup with ⟨p, hp, rfl⟩
    exact indexed_mem hp
  · simp only [removeDuplicates, List.length_map]
    have h1 := List.length_filterMap_le
      (id : Option DedupEntry → Option DedupEntry)
      (markRemovals ((jsSort (fun l r =>
          decide (r.collateral.length ≤ l.collateral.length))
        (dedupEntries env input)).map some))
    have h2 : (markRemovals ((jsSort (fun l r =>
        decide (r.collateral.length ≤ l.collateral.length))
          (dedupEntries env input)).map some)).length = input.length := by
      rw [markRemovals]
      rw [length_foldl_pres _ ?hs]
      case hs =>
        intro acc i
        cases hm : acc[i]? with
        | none => rfl
        | some oe =>
          cases oe with
          | none => rfl
          | some entry => simp only [length_foldl_setNone]
      rw [List.length_map, (jsSort_perm _ _).length_eq]
      rw [dedupEntries, List.length_map, indexed_length]
    exact le_trans h1 (le_of_eq h2)

/-- Witness for C10 at a concrete input. -/
theorem removeDuplicates_mark_and_filter_witness :
    winDepA ∈ removeDuplicates trivEnv [winDepA] ∧ winDepA ∈ [winDepA] :=
  ⟨by decide,
   (removeDuplicates_mark_and_filter trivEnv [winDepA]).1 winDepA (by decide)⟩

/-- C7: `isFuzzyVersion` is false for an absent or empty `versionMatch`;
for every non-empty string it is true iff the first character is not a hex
digit or the string does not round-trip through `semver.validRange`; in
particular it is false for "1.2.3" (whose canonical range form is itself)
and true for "latest". -/
theorem isFuzzyVersion_spec (env : Externals) :
    isFuzzyVersion env none = false
    ∧ isFuzzyVersion env (some "") = false
    ∧ (∀ s : String, s ≠ "" →
        isFuzzyVersion env (some s)
          = (!(isHexDigit s.front) || (env.validRange s != some s)))
    ∧ (env.validRange "1.2.3" = some "1.2.3" →
        isFuzzyVersion env (some "1.2.3") = false)
    ∧ isFuzzyVersion env (some "latest") = true := by
  refine ⟨rfl, rfl, ?_, ?_, ?_⟩
  · intro s hs
    have he : s.isEmpty = false := by
      by_contra hcon
      exact hs ((String.isEmpty_iff s).1 (by simpa using hcon))
    simp [isFuzzyVersion, he]
  · intro h
    have he : ("1.2.3" : String).isEmpty = false := by decide
    have hx : isHexDigit ("1.2.3" : String).front = true := by decide
    simp [isFuzzyVersion, he, hx, h]
  · have he : ("latest" : String).isEmpty = false := by decide
    have hl : isHexDigit ("latest" : String).front = false := by decide
    simp [isFuzzyVersion, he, hl]

/-- C4: `findModByRef` and `findDownloadByRef` relax a reference
identically — `fileMD5` is dropped exactly when `versionMatch` is fuzzy,
`fileMD5` is present and `logicalFileName` or `fileExpression` is present;
otherwise the reference is used unchanged (field-for-field); the extra
`versionMatch !== undefined` guard in `findModByRef` changes nothing, and
`findModByRef` matches the installed mods against the relaxed reference. -/
theorem relax_identical (env : Externals) (reference : IReference) (state : IState) :
    relaxModRef env reference = relaxDownloadRef env reference
    ∧ (isFuzzyVersion env reference.versionMatch = true →
        reference.fileMD5 ≠ none →
        (reference.logicalFileName ≠ none ∨ reference.fileExpression ≠ none) →
        relaxDownloadRef env reference = { reference with fileMD5 := none })
    ∧ ((isFuzzyVersion env reference.versionMatch = false
        ∨ reference.fileMD5 = none
        ∨ (reference.logicalFileName = none ∧ reference.fileExpression = none)) →
        relaxDownloadRef env reference = reference)
    ∧ findModByRef env reference state
        = (state.mods (activeGameId state)).find?
            (fun mod => env.testMod mod (relaxModRef env reference)) := by
  refine ⟨?_, ?_, ?_, rfl⟩
  · cases hv : reference.versionMatch with
    | none => simp [relaxModRef, relaxDownloadRef, hv, isFuzzyVersion]
    | some s => simp [relaxModRef, relaxDownloadRef, hv]
  · intro h1 h2 h3
    have hmd : (reference.fileMD5 != none) = true := by
      simpa [bne_iff_ne] using h2
    have hlf : ((reference.logicalFileName != none)
        || (reference.fileExpression != none)) = true := by
      rcases h3 with h | h <;> simp [bne_iff_ne, h]
    simp [relaxDownloadRef, h1, hmd, hlf]
  · intro h
    rcases h with h | h | h
    · simp [relaxDownloadRef, h]
    · simp [relaxDownloadRef, h]
    · simp [relaxDownloadRef, h.1, h.2]

/-- C8: `lookupFulfills` is the conjunction, over exactly the reference
fields that are present, of gameId/fileMD5/fileSize/logicalFileName
equality, `fileExpression` glob-matching `value.fileName` and
`versionMatch` range-satisfaction against `value.fileVersion`; absent
fields are vacuously satisfied, so a reference with no fields set is
fulfilled by every lookup result (and no relaxation is applied: the iff
mentions only the given reference's own fields). -/
theorem lookupFulfills_conjunctive (env : Externals) (lookup : ILookupResult)
    (value : ILookupValue) (r : IReference) :
    (lookup.value = some value →
      (lookupFulfills env lookup r = true ↔
        ((∀ g, r.gameId = some g → g = value.gameId)
        ∧ (∀ m, r.fileMD5 = some m → m = value.fileMD5)
        ∧ (∀ n, r.fileSize = some n → n = value.fileSizeBytes)
        ∧ (∀ l, r.logicalFileName = some l → l = value.logicalFileName)
        ∧ (∀ fe, r.fileExpression = some fe →
            env.minimatch value.fileName fe = true)
        ∧ (∀ vm, r.versionMatch = some vm →
            env.satisfies value.fileVersion vm = true))))
    ∧ (refFieldsAbsent r = true → lookupFulfills env lookup r = true) := by
  constructor
  · intro hv
    rcases lookup with ⟨lv⟩
    simp only at hv
    cases hv
    rcases r with ⟨g, m, n, l, fe, vm⟩
    cases g <;> cases m <;> cases n <;> cases l <;> cases fe <;> cases vm <;>
      simp [lookupFulfills, and_assoc]
  · intro h
    simp only [refFieldsAbsent, Bool.and_eq_true, beq_iff_eq] at h
    obtain ⟨⟨⟨⟨⟨h1, h2⟩, h3⟩, h4⟩, h5⟩, h6⟩ := h
    rcases lookup with ⟨lv⟩
    cases lv with
    | none => simp [lookupFulfills, refFieldsAbsent, h1, h2, h3, h4, h5, h6]
    | some v => simp [lookupFulfills, h1, h2, h3, h4, h5, h6]

theorem semverCompare_of_lt {c1 c2 : Nat × Nat × Nat}
    (h : c1.1 < c2.1 ∨ (c1.1 = c2.1 ∧ (c1.2.1 < c2.2.1
        ∨ (c1.2.1 = c2.2.1 ∧ c1.2.2 < c2.2.2)))) :
    semverCompare c2 c1 = 1 := by
  obtain ⟨a1, b1, d1⟩ := c1
  obtain ⟨a2, b2, d2⟩ := c2
  simp only at h
  simp only [semverCompare, Prod.mk.injEq]
  split
  · omega
  · split
    · simp_all [decide_eq_true_eq]
      omega
    · rfl

theorem removeDuplicates_nil (env : Externals) :
    removeDuplicates env [] = [] := rfl

theorem removeDuplicates_singleton (env : Externals) (d : IDependency) :
    removeDuplicates env [d] = [d] := rfl

/-- C5: a `requires` rule whose reference matches an installed mod leaves
the running list, log and lookup trace unchanged (the lookup capability is
not invoked for it), and a rule list containing a single such rule resolves
to the empty sequence with no lookup performed at all. -/
theorem gather_skips_installed (env : Externals) (state : IState) :
    (∀ (recurse : Option (List IRule) → Option GatherOut)
        (total : List IDependency) (logs : List String)
        (lks : List IReference) (rule : IRule) (rest : List IRule),
      (findModByRef env rule.reference state).isSome = true →
      gatherLoopWith env state recurse total logs lks (rule :: rest)
        = gatherLoopWith env state recurse total logs lks rest)
    ∧ (∀ (fuel : Nat) (rule : IRule),
      rule.type = "requires" →
      (findModByRef env rule.reference state).isSome = true →
      gatherDependencies env state (fuel + 1) (some [rule])
        = some ([], [], [])) := by
  constructor
  · intro recurse total logs lks rule rest h
    simp [gatherLoopWith, h]
  · intro fuel rule htype h
    simp [gatherDependencies, htype, gatherLoopWith, h, removeDuplicates_nil]

theorem gatherLoop_unusable (env : Externals) (state : IState)
    (hun : ∀ ref, lookupUnusable (env.lookup ref) = true) :
    ∀ (reqs : List IRule) (recurse : Option (List IRule) → Option GatherOut)
      (logs : List String) (lks : List IReference),
      ∃ logs2 lks2,
        gatherLoopWith env state recurse [] logs lks reqs
          = some ([], logs2, lks2) := by
  intro reqs
  induction reqs with
  | nil => intro recurse logs lks; exact ⟨logs, lks, rfl⟩
  | cons rule rest ih =>
    intro recurse logs lks
    by_cases hmod : (findModByRef env rule.reference state).isSome
    · simpa [gatherLoopWith, hmod] using ih recurse logs lks
    · have hun1 := hun rule.reference
      cases hl : env.lookup rule.reference with
      | failure msg =>
        simpa [gatherLoopWith, hmod, hl] using
          ih recurse (logs ++ ["failed to look up: " ++ msg])
            (lks ++ [rule.reference])
      | success details =>
        cases details with
        | nil =>
          simpa [gatherLoopWith, hmod, hl] using
            ih recurse (logs ++ ["failed to look up: reference not found"])
              (lks ++ [rule.reference])
        | cons first ds =>
          have hv : first.value = none := by
            simpa [lookupUnusable, hl] using hun1
          simpa [gatherLoopWith, hmod, hl, hv] using
            ih recurse (logs ++ ["failed to look up: reference not found"])
              (lks ++ [rule.reference])

/-- C3: when a requirement's remote lookup rejects, returns an empty
result, or returns a first candidate with no value, the gatherer logs the
failure, leaves the accumulated dependency list unchanged, and continues
with the remaining requirements; when every lookup fails this way, the
top-level resolve completes (with any fuel) with the empty list, never
propagating an error. -/
theorem gather_soft_failure (env : Externals) (state : IState) :
    (∀ (recurse : Option (List IRule) → Option GatherOut) total logs lks
        (rule : IRule) (rest : List IRule) (msg : String),
      findModByRef env rule.reference state = none →
      env.lookup rule.reference = .failure msg →
      gatherLoopWith env state recurse total logs lks (rule :: rest)
        = gatherLoopWith env state recurse total
            (logs ++ ["failed to look up: " ++ msg])
            (lks ++ [rule.reference]) rest)
    ∧ (∀ (recurse : Option (List IRule) → Option GatherOut) total logs lks
        (rule : IRule) (rest : List IRule),
      findModByRef env rule.reference state = none →
      env.lookup rule.reference = .success [] →
      gatherLoopWith env state recurse total logs lks (rule :: rest)
        = gatherLoopWith env state recurse total
            (logs ++ ["failed to look up: reference not found"])
            (lks ++ [rule.reference]) rest)
    ∧ (∀ (recurse : Option (List IRule) → Option GatherOut) total logs lks
        (rule : IRule) (rest : List IRule) details first,
      findModByRef env rule.reference state = none →
      env.lookup rule.reference = .success details →
      details.head? = some first →
      first.value = none →
      gatherLoopWith env state recurse total logs lks (rule :: rest)
        = gatherLoopWith env state recurse total
            (logs ++ ["failed to look up: reference not found"])
            (lks ++ [rule.reference]) rest)
    ∧ (∀ (fuel : Nat) (rules : Option (List IRule)),
      (∀ ref, lookupUnusable (env.lookup ref) = true) →
      ∃ logs lks,
        gatherDependencies env state (fuel + 1) rules = some ([], logs, lks)) := by
  refine ⟨?_, ?_, ?_, ?_⟩
  · intro recurse total logs lks rule rest msg hmod hl
    simp [gatherLoopWith, hmod, hl]
  · intro recurse total logs lks rule rest hmod hl
    simp [gatherLoopWith, hmod, hl]
  · intro recurse total logs lks rule rest details first hmod hl hh hv
    cases details with
    | nil => cases hh
    | cons f ds =>
      simp only [List.head?] at hh
      cases hh
      simp [gatherLoopWith, hmod, hl, hv]
  · intro fuel rules hun
    obtain ⟨logs2, lks2, heq⟩ :=
      gatherLoop_unusable env state hun
        ((rules.getD []).filter (fun rule => rule.type == "requires"))
        (gatherDependencies env state fuel) [] []
    refine ⟨logs2, lks2, ?_⟩
    simp [gatherDependencies, heq, removeDuplicates_nil]

/-- C9: relaxation never leaks into the result: the dependency record the
gatherer appends carries the rule's original reference verbatim (with its
`fileMD5` intact) even though `findModByRef`/`findDownloadByRef` matched
against a relaxed local copy, and the single-rule resolve returns exactly
that record. -/
theorem gather_keeps_original_reference (env : Externals) (state : IState) :
    (∀ (recurse : Option (List IRule) → Option GatherOut) total logs lks
        (rule : IRule) (rest : List IRule) details first value deps recLogs
        recLks,
      findModByRef env rule.reference state = none →
      env.lookup rule.reference = .success details →
      details.head? = some first →
      first.value = some value →
      recurse value.rules = some (deps, recLogs, recLks) →
      gatherLoopWith env state recurse total logs lks (rule :: rest)
        = gatherLoopWith env state recurse
            (total ++ deps
              ++ [{ download := findDownloadByRef env rule.reference state
                    reference := rule.reference
                    lookupResults := details }])
            (logs ++ recLogs) (lks ++ [rule.reference] ++ recLks) rest)
    ∧ (∀ (fuel : Nat) (rule : IRule) details first value,
      rule.type = "requires" →
      findModByRef env rule.reference state = none →
      env.lookup rule.reference = .success details →
      details.head? = some first →
      first.value = some value →
      value.rules = none →
      gatherDependencies env state (fuel + 2) (some [rule])
        = some ([{ download := findDownloadByRef env rule.reference state
                   reference := rule.reference
                   lookupResults := details }], [], [rule.reference])) := by
  constructor
  · intro recurse total logs lks rule rest details first value deps recLogs
      recLks hmod hl hh hv hrec
    cases details with
    | nil => cases hh
    | cons f ds =>
      simp only [List.head?] at hh
      cases hh
      simp [gatherLoopWith, hmod, hl, hv, hrec]
  · intro fuel rule details first value htype hmod hl hh hv hrules
    cases details with
    | nil => cases hh
    | cons f ds =>
      simp only [List.head?] at hh
      cases hh
      simp [gatherDependencies, htype, gatherLoopWith, hmod, hl, hv, hrules,
            removeDuplicates_nil, removeDuplicates_singleton]

theorem isFuzzyVersion_spec_witness :
    isFuzzyVersion semverishEnv (some "1.2.3") = false
    ∧ isFuzzyVersion semverishEnv (some "latest") = true
    ∧ isFuzzyVersion semverishEnv (some "zz")
        = (!(isHexDigit ("zz" : String).front)
            || (semverishEnv.validRange "zz" != some "zz")) :=
  ⟨(isFuzzyVersion_spec semverishEnv).2.2.2.1 (by decide),
   (isFuzzyVersion_spec semverishEnv).2.2.2.2,
   (isFuzzyVersion_spec semverishEnv).2.2.1 "zz" (by decide)⟩

theorem relax_identical_witness :
    relaxDownloadRef trivEnv fuzzyRef = { fuzzyRef with fileMD5 := none }
    ∧ relaxDownloadRef trivEnv noMd5Ref = noMd5Ref
    ∧ relaxModRef trivEnv fuzzyRef = relaxDownloadRef trivEnv fuzzyRef :=
  ⟨(relax_identical trivEnv fuzzyRef emptyState).2.1 (by decide) (by decide)
      (Or.inl (by decide)),
   (relax_identical trivEnv noMd5Ref emptyState).2.2.1 (Or.inr (Or.inl rfl)),
   (relax_identical trivEnv fuzzyRef emptyState).1⟩

theorem lookupFulfills_conjunctive_witness :
    lookupFulfills trivEnv ⟨some abcValue⟩ abcRef = true
    ∧ lookupFulfills trivEnv ⟨some abcValue⟩ defRef = false
    ∧ lookupFulfills trivEnv ⟨some abcValue⟩ {} = true :=
  ⟨((lookupFulfills_conjunctive trivEnv ⟨some abcValue⟩ abcValue abcRef).1
      rfl).2 (by simp [abcRef, abcValue]),
   by decide,
   (lookupFulfills_conjunctive trivEnv ⟨some abcValue⟩ abcValue {}).2
      (by decide)⟩

theorem jsSort_mem (le : α → α → Bool) (l : List α) (x : α) :
    x ∈ jsSort le l ↔ x ∈ l :=
  (jsSort_perm le l).mem_iff

theorem jsSort_head_min (le : α → α → Bool) :
    ∀ (l : List α),
      (∀ a ∈ l, ∀ b ∈ l, le a b = true ∨ le b a = true) →
      (∀ a ∈ l, ∀ b ∈ l, ∀ c ∈ l, le a b = true → le b c = true → le a c = true) →
      ∀ h, (jsSort le l).head? = some h → ∀ x ∈ l, le h x = true := by
  intro l
  induction l with
  | nil => intro _ _ h hh; cases hh
  | cons a as ih =>
    intro htot htrans h hh x hx
    have hsub1 : ∀ b ∈ as, b ∈ a :: as := fun b hb => List.mem_cons_of_mem a hb
    have haa : le a a = true := by
      rcases htot a (List.mem_cons_self a as) a (List.mem_cons_self a as) with
        h1 | h1 <;> exact h1
    cases hs : jsSort le as with
    | nil =>
      have has : as = [] := by
        have hlen := (jsSort_perm le as).length_eq
        rw [hs] at hlen
        exact List.length_eq_zero.1 hlen.symm
      subst has
      simp only [jsSort, hs, jsInsert, List.head?] at hh
      cases hh
      simp only [List.mem_singleton] at hx
      subst hx
      exact haa
    | cons h2 t2 =>
      have hh2mem : h2 ∈ as := by
        have : h2 ∈ jsSort le as := by rw [hs]; exact List.mem_cons_self h2 t2
        exact (jsSort_mem le as h2).1 this
      have hmin2 : ∀ y ∈ as, le h2 y = true :=
        ih (fun p hp q hq => htot p (hsub1 p hp) q (hsub1 q hq))
          (fun p hp q hq r hr => htrans p (hsub1 p hp) q (hsub1 q hq) r (hsub1 r hr))
          h2 (by rw [hs]; rfl)
      simp only [jsSort, hs, jsInsert] at hh
      cases hle : le a h2 with
      | true =>
        rw [hle] at hh
        simp only [if_true, List.head?, Option.some.injEq] at hh
        subst hh
        rcases List.mem_cons.1 hx with hxa | hxas
        · subst hxa; exact haa
        · exact htrans a (List.mem_cons_self a as) h2 (hsub1 h2 hh2mem) x
            (hsub1 x hxas) hle (hmin2 x hxas)
      | false =>
        rw [hle] at hh
        simp only [Bool.false_eq_true, if_false, List.head?, Option.some.injEq] at hh
        subst hh
        rcases List.mem_cons.1 hx with hxa | hxas
        · rw [hxa]
          rcases htot a (List.mem_cons_self a as) h2 (hsub1 h2 hh2mem) with
            h1 | h1
          · rw [h1] at hle; cases hle
          · exact h1
        · exact hmin2 x hxas

theorem semverCompare_le_zero_iff (a b : Nat × Nat × Nat) :
    semverCompare a b ≤ 0 ↔
      (a.1 < b.1 ∨ (a.1 = b.1 ∧ (a.2.1 < b.2.1
        ∨ (a.2.1 = b.2.1 ∧ a.2.2 ≤ b.2.2)))) := by
  obtain ⟨a1, a2, a3⟩ := a
  obtain ⟨b1, b2, b3⟩ := b
  simp only [semverCompare, Prod.mk.injEq]
  split_ifs with h1 h2 <;> simp_all <;> omega

theorem semverCompare_le_total (a b : Nat × Nat × Nat) :
    semverCompare a b ≤ 0 ∨ semverCompare b a ≤ 0 := by
  rw [semverCompare_le_zero_iff, semverCompare_le_zero_iff]
  omega

theorem semverCompare_le_trans (a b c : Nat × Nat × Nat) :
    semverCompare a b ≤ 0 → semverCompare b c ≤ 0 → semverCompare a c ≤ 0 := by
  rw [semverCompare_le_zero_iff, semverCompare_le_zero_iff,
    semverCompare_le_zero_iff]
  omega

theorem newerSort_coerced (env : Externals) (d1 d2 : IDownload)
    (c1 c2 : Nat × Nat × Nat)
    (h1 : (d1.modInfo.bind (·.version)).bind env.coerce = some c1)
    (h2 : (d2.modInfo.bind (·.version)).bind env.coerce = some c2) :
    newerSort env d1 d2 = semverCompare c2 c1 := by
  simp only [newerSort, h1, h2]

theorem newerSort_uncoerced (env : Externals) (d1 d2 : IDownload)
    (h : (d1.modInfo.bind (·.version)).bind env.coerce = none
      ∨ (d2.modInfo.bind (·.version)).bind env.coerce = none) :
    newerSort env d1 d2 = d2.fileTime - d1.fileTime := by
  rcases h with h | h
  · simp only [newerSort, h]
  · cases hx : (d1.modInfo.bind (·.version)).bind env.coerce <;>
      simp only [newerSort, hx, h]

theorem findDownloadByRef_min_helper (env : Externals)
    (reference : IReference) (state : IState) :
    ((∀ p ∈ matchingDownloads env reference state,
        ((Prod.snd p).modInfo.bind (·.version)).bind env.coerce ≠ none) →
      ∀ idh, findDownloadByRef env reference state = some idh →
        ∃ dh, (idh, dh) ∈ matchingDownloads env reference state
          ∧ ∀ q ∈ matchingDownloads env reference state,
              newerSort env dh q.2 ≤ 0)
    ∧ ((∀ p ∈ matchingDownloads env reference state,
        ((Prod.snd p).modInfo.bind (·.version)).bind env.coerce = none) →
      ∀ idh, findDownloadByRef env reference state = some idh →
        ∃ dh, (idh, dh) ∈ matchingDownloads env reference state
          ∧ ∀ q ∈ matchingDownloads env reference state,
              newerSort env dh q.2 ≤ 0) := by
  have main : ∀ (hcomp :
      (∀ a ∈ matchingDownloads env reference state,
        ∀ b ∈ matchingDownloads env reference state,
          newerSort env a.2 b.2 ≤ 0 ∨ newerSort env b.2 a.2 ≤ 0)
      ∧ (∀ a ∈ matchingDownloads env reference state,
        ∀ b ∈ matchingDownloads env reference state,
        ∀ c ∈ matchingDownloads env reference state,
          newerSort env a.2 b.2 ≤ 0 → newerSort env b.2 c.2 ≤ 0 →
          newerSort env a.2 c.2 ≤ 0)),
      ∀ idh, findDownloadByRef env reference state = some idh →
        ∃ dh, (idh, dh) ∈ matchingDownloads env reference state
          ∧ ∀ q ∈ matchingDownloads env reference state,
              newerSort env dh q.2 ≤ 0 := by
    intro hcomp idh hfind
    have hfind2 : ((jsSort
        (fun l r => decide (newerSort env l.2 r.2 ≤ 0))
        (matchingDownloads env reference state)).map Prod.fst).head?
        = some idh := hfind
    cases hsort : jsSort (fun l r => decide (newerSort env l.2 r.2 ≤ 0))
        (matchingDownloads env reference state) with
    | nil => rw [hsort] at hfind2; cases hfind2
    | cons p t =>
      rw [hsort] at hfind2
      simp only [List.map_cons, List.head?, Option.some.injEq] at hfind2
      have hpmem : p ∈ matchingDownloads env reference state := by
        have : p ∈ jsSort (fun l r => decide (newerSort env l.2 r.2 ≤ 0))
            (matchingDownloads env reference state) := by
          rw [hsort]; exact List.mem_cons_self p t
        exact (jsSort_mem _ _ p).1 this
      refine ⟨p.2, ?_, ?_⟩
      · rw [← hfind2]
        simpa using hpmem
      · intro q hq
        have hmin := jsSort_head_min
          (fun l r => decide (newerSort env l.2 r.2 ≤ 0))
          (matchingDownloads env reference state)
          (fun a ha b hb => by
            rcases hcomp.1 a ha b hb with h | h <;> simp [h])
          (fun a ha b hb c hc hab hbc => by
            simp only [decide_eq_true_eq] at hab hbc
            simp [hcomp.2 a ha b hb c hc hab hbc])
          p (by rw [hsort]; rfl) q hq
        simpa using hmin
  constructor
  · intro hco
    refine main ⟨?_, ?_⟩
    · intro a ha b hb
      obtain ⟨ca, hca⟩ := Option.ne_none_iff_exists'.1 (hco a ha)
      obtain ⟨cb, hcb⟩ := Option.ne_none_iff_exists'.1 (hco b hb)
      rw [newerSort_coerced env a.2 b.2 ca cb hca hcb,
        newerSort_coerced env b.2 a.2 cb ca hcb hca]
      exact semverCompare_le_total cb ca
    · intro a ha b hb c hc
      obtain ⟨ca, hca⟩ := Option.ne_none_iff_exists'.1 (hco a ha)
      obtain ⟨cb, hcb⟩ := Option.ne_none_iff_exists'.1 (hco b hb)
      obtain ⟨cc, hcc⟩ := Option.ne_none_iff_exists'.1 (hco c hc)
      rw [newerSort_coerced env a.2 b.2 ca cb hca hcb,
        newerSort_coerced env b.2 c.2 cb cc hcb hcc,
        newerSort_coerced env a.2 c.2 ca cc hca hcc]
      exact fun hba hcb2 => semverCompare_le_trans cc cb ca hcb2 hba
  · intro hco
    refine main ⟨?_, ?_⟩
    · intro a ha b hb
      rw [newerSort_uncoerced env a.2 b.2 (Or.inl (hco a ha)),
        newerSort_uncoerced env b.2 a.2 (Or.inl (hco b hb))]
      omega
    · intro a ha b hb c hc
      rw [newerSort_uncoerced env a.2 b.2 (Or.inl (hco a ha)),
        newerSort_uncoerced env b.2 c.2 (Or.inl (hco b hb)),
        newerSort_uncoerced env a.2 c.2 (Or.inl (hco a ha))]
      omega

/-- C6: `findDownloadByRef` returns, among the downloads whose derived
lookup shape matches the relaxed reference, the newest one: with two
matching downloads whose versions both coerce, the higher version wins;
otherwise the later completion timestamp wins; with no matching download
it returns none; and in general, whenever all matching downloads have a
coercible version (or none has), the returned id belongs to a matching
download that every other matching download compares no newer than. -/
theorem findDownloadByRef_newest (env : Externals) (reference : IReference)
    (state : IState) :
    (state.downloads.filter (fun entry =>
        env.testLookupInfo (downloadLookupInfo entry.2)
          (relaxDownloadRef env reference)) = [] →
      findDownloadByRef env reference state = none)
    ∧ (∀ id1 id2 d1 d2 c1 c2,
        state.downloads = [(id1, d1), (id2, d2)] →
        env.testLookupInfo (downloadLookupInfo d1)
          (relaxDownloadRef env reference) = true →
        env.testLookupInfo (downloadLookupInfo d2)
          (relaxDownloadRef env reference) = true →
        (d1.modInfo.bind (·.version)).bind env.coerce = some c1 →
        (d2.modInfo.bind (·.version)).bind env.coerce = some c2 →
        (c1.1 < c2.1 ∨ (c1.1 = c2.1 ∧ (c1.2.1 < c2.2.1
          ∨ (c1.2.1 = c2.2.1 ∧ c1.2.2 < c2.2.2)))) →
        findDownloadByRef env reference state = some id2)
    ∧ (∀ id1 id2 d1 d2,
        state.downloads = [(id1, d1), (id2, d2)] →
        env.testLookupInfo (downloadLookupInfo d1)
          (relaxDownloadRef env reference) = true →
        env.testLookupInfo (downloadLookupInfo d2)
          (relaxDownloadRef env reference) = true →
        ((d1.modInfo.bind (·.version)).bind env.coerce = none
          ∨ (d2.modInfo.bind (·.version)).bind env.coerce = none) →
        d1.fileTime < d2.fileTime →
        findDownloadByRef env reference state = some id2)
    ∧ ((∀ p ∈ matchingDownloads env reference state,
        ((Prod.snd p).modInfo.bind (·.version)).bind env.coerce ≠ none) →
      ∀ idh, findDownloadByRef env reference state = some idh →
        ∃ dh, (idh, dh) ∈ matchingDownloads env reference state
          ∧ ∀ q ∈ matchingDownloads env reference state,
              newerSort env dh q.2 ≤ 0)
    ∧ ((∀ p ∈ matchingDownloads env reference state,
        ((Prod.snd p).modInfo.bind (·.version)).bind env.coerce = none) →
      ∀ idh, findDownloadByRef env reference state = some idh →
        ∃ dh, (idh, dh) ∈ matchingDownloads env reference state
          ∧ ∀ q ∈ matchingDownloads env reference state,
              newerSort env dh q.2 ≤ 0) := by
  refine ⟨?_, ?_, ?_, (findDownloadByRef_min_helper env reference state).1,
    (findDownloadByRef_min_helper env reference state).2⟩
  · intro hfil
    simp [findDownloadByRef, hfil, jsSort]
  · intro id1 id2 d1 d2 c1 c2 hds ht1 ht2 hc1 hc2 hlt
    have hcmp : semverCompare c2 c1 = 1 := semverCompare_of_lt hlt
    have hns : newerSort env d1 d2 = 1 := by
      simp only [newerSort, hc1, hc2, hcmp]
    have hle : (decide (newerSort env d1 d2 ≤ 0)) = false := by
      simp [hns]
    simp [findDownloadByRef, hds, List.filter_cons, ht1, ht2, jsSort,
          jsInsert, hle]
  · intro id1 id2 d1 d2 hds ht1 ht2 hco hft
    have hns : newerSort env d1 d2 = d2.fileTime - d1.fileTime := by
      rcases hco with hc | hc
      · simp only [newerSort, hc]
      · cases hx : (d1.modInfo.bind (·.version)).bind env.coerce <;>
          simp only [newerSort, hx, hc]
    have hle : (decide (newerSort env d1 d2 ≤ 0)) = false := by
      rw [hns]
      simp only [decide_eq_false_iff_not]
      omega
    simp [findDownloadByRef, hds, List.filter_cons, ht1, ht2, jsSort,
          jsInsert, hle]

theorem findDownloadByRef_newest_witness :
    findDownloadByRef coerceEnv {} twoVerState = some "new"
    ∧ findDownloadByRef coerceEnv {} twoTimeState = some "late"
    ∧ findDownloadByRef coerceEnv {} emptyState = none :=
  ⟨(findDownloadByRef_newest coerceEnv {} twoVerState).2.1 "old" "new" dlOld
      dlNew (1, 0, 0) (2, 0, 0) rfl (by decide) (by decide) (by decide)
      (by decide) (Or.inl (by decide)),
   (findDownloadByRef_newest coerceEnv {} twoTimeState).2.2.1 "early" "late"
      dlEarly dlLate rfl (by decide) (by decide) (Or.inl (by decide))
      (by decide),
   (findDownloadByRef_newest coerceEnv {} emptyState).1 rfl⟩

theorem gather_skips_installed_witness :
    gatherDependencies installedEnv oneModState 1 (some [reqRule])
      = some ([], [], []) :=
  (gather_skips_installed installedEnv oneModState).2 0 reqRule rfl (by decide)

theorem gather_soft_failure_witness :
    (gatherLoopWith trivEnv emptyState (fun _ => none) [] [] [] [reqRule]
      = gatherLoopWith trivEnv emptyState (fun _ => none) []
          ["failed to look up: offline"] [reqRef] [])
    ∧ (∃ logs lks, gatherDependencies trivEnv emptyState 1 (some [reqRule])
        = some ([], logs, lks)) := by
  constructor
  · have h := (gather_soft_failure trivEnv emptyState).1 (fun _ => none) [] []
      [] reqRule [] "offline" rfl rfl
    simpa using h
  · exact (gather_soft_failure trivEnv emptyState).2.2.2 0 (some [reqRule])
      (fun ref => rfl)

theorem gather_keeps_original_reference_witness :
    gatherDependencies relaxEnv dlState 2 (some [fuzzyRule])
      = some ([{ download := some "dl1", reference := fuzzyRef,
                 lookupResults := [⟨some {}⟩] }], [], [fuzzyRef])
    ∧ fuzzyRef.fileMD5 = some "m" := by
  constructor
  · have h := (gather_keeps_original_reference relaxEnv dlState).2 0 fuzzyRule
      [⟨some {}⟩] ⟨some {}⟩ {} rfl rfl rfl rfl rfl rfl
    exact h.trans (by decide)
  · rfl
